import Mathlib

/-!
Verification of the AVM2 object/class runtime core (property storage,
executable dispatch, class object lifecycle, call stack) against its
natural-language specification.

The definitions below are shallow embeddings of the Rust sources:
  * `core/src/avm2/object/script_object.rs` (`ScriptObjectData`)
  * `core/src/avm2/object/class_object.rs` (`ClassObject`)
  * `core/src/avm2/function.rs` (`Executable::exec`)
  * `core/src/avm2/call_stack.rs` (`CallStack`)
Collaborator modules that are not part of the sources (vtable.rs, class.rs,
method.rs, activation.rs, error.rs) are modelled from the specification
where a claim depends on them; those definitions carry a
`Modelled from the spec:` note in their doc comment.
-/

set_option autoImplicit false

namespace Avm2

/-- AVM2 values, restricted to the payloads the verified operations need.
`vclass` is a reference (by id) to a `ClassObject`, used by generic type
application; object identity is modelled as a natural-number id. -/
inductive Value : Type where
  | undefined
  | null
  | vbool (b : Bool)
  | vint (n : Int)
  | vstr (s : String)
  | vclass (id : Nat)
deriving DecidableEq, Repr

/-- The two `ReferenceErrorCode` variants exercised by `ScriptObjectData`
(`error::ReferenceErrorCode::InvalidRead` / `InvalidWrite`). -/
inductive ReferenceErrorCode : Type where
  | invalidRead
  | invalidWrite
deriving DecidableEq, Repr

/-- A reference error as produced by `error::make_reference_error`.
Modelled from the spec: `error.rs` is not in the sources; only the error
code variant is observable to the claims. -/
structure RefError : Type where
  code : ReferenceErrorCode
deriving DecidableEq, Repr

/-- A `Multiname` as consumed by the dynamic-property paths of
`ScriptObjectData`: the `contains_public_namespace` predicate and the
optional local name. Modelled from the spec: `multiname.rs` is not in the
sources; these are exactly the two observations `script_object.rs` makes. -/
structure Multiname : Type where
  containsPublicNamespace : Bool
  localName : Option String
deriving DecidableEq, Repr

/-- Association-list lookup, the embedding of `FnvHashMap::get`. -/
def lookupAssoc {α β : Type} [DecidableEq α] : List (α × β) → α → Option β
  | [], _ => none
  | (k, v) :: rest, key => if k = key then some v else lookupAssoc rest key

/-- Association-list update of an existing key, the embedding of
`Entry::Occupied(o) => o.insert(value)`. -/
def updateAssoc {α β : Type} [DecidableEq α] : List (α × β) → α → β → List (α × β)
  | [], _, _ => []
  | (k, v) :: rest, key, nv =>
      if k = key then (k, nv) :: rest else (k, v) :: updateAssoc rest key nv

/-- The per-object part of `ScriptObjectData`: the dynamic value map, the
`sealed` flag of the owning class (`instance_of`, `None` for classless bare
objects), and the enumerant list. -/
structure ObjRec : Type where
  values : List (String × Value)
  instanceOfSealed : Option Bool
  enumerants : List String
deriving DecidableEq, Repr

/-- A `ScriptObjectData` together with its (acyclic) prototype chain,
flattened: `own` is the object itself, `protos` the successive `proto()`
links, nearest first. -/
structure SObj : Type where
  own : ObjRec
  protos : List ObjRec
deriving DecidableEq, Repr

/-- Embeds `ScriptObjectData::is_sealed`: derived from the owning class's sealed
flag, `false` for classless objects. -/
def ObjRec.isSealed (o : ObjRec) : Bool :=
  o.instanceOfSealed.getD false

def SObj.isSealed (o : SObj) : Bool :=
  o.own.isSealed

/-- The `while let Some(obj) = proto` loop of `get_property_local`:
repeat the dynamic-map check at each prototype link. -/
def protoLookup (n : String) : List ObjRec → Option Value
  | [] => none
  | o :: rest =>
    match lookupAssoc o.values n with
    | some v => some v
    | none => protoLookup n rest

/-- Embeds `ScriptObjectData::get_property_local`
(`core/src/avm2/object/script_object.rs:145-198`). -/
def getPropertyLocal (o : SObj) (mn : Multiname) : Except RefError Value :=
  if mn.containsPublicNamespace = false then
    .error ⟨.invalidRead⟩
  else
    match mn.localName with
    | none => .error ⟨.invalidRead⟩
    | some n =>
      match lookupAssoc o.own.values n with
      | some v => .ok v
      | none =>
        match protoLookup n o.protos with
        | some v => .ok v
        | none =>
          if o.isSealed then .error ⟨.invalidRead⟩ else .ok .undefined

/-- Embeds `ScriptObjectData::set_property_local`
(`core/src/avm2/object/script_object.rs:200-235`). Returns the updated
object (only the object's own record is mutated). -/
def setPropertyLocal (o : SObj) (mn : Multiname) (v : Value) :
    Except RefError SObj :=
  if o.isSealed || !mn.containsPublicNamespace then
    .error ⟨.invalidWrite⟩
  else
    match mn.localName with
    | none => .error ⟨.invalidWrite⟩
    | some n =>
      match lookupAssoc o.own.values n with
      | some _ =>
        .ok { o with own := { o.own with values := updateAssoc o.own.values n v } }
      | none =>
        .ok { o with own := { o.own with
                enumerants := o.own.enumerants ++ [n],
                values := o.own.values ++ [(n, v)] } }

/-- Embeds `ScriptObjectData::get_next_enumerant`
(`core/src/avm2/object/script_object.rs:359-365`). -/
def getNextEnumerant (o : SObj) (lastIndex : Nat) : Option Nat :=
  if lastIndex < o.own.enumerants.length then some (lastIndex + 1) else none

/-- Embeds `ScriptObjectData::get_enumerant_name`
(`core/src/avm2/object/script_object.rs:367-377`): `checked_sub(1)` makes
index 0 the failure sentinel. -/
def getEnumerantName (o : SObj) (index : Nat) : Option Value :=
  match index with
  | 0 => none
  | i + 1 => (o.own.enumerants.get? i).map .vstr

/-- The lookup order described by claim C4's words: look the local name up
in the dynamic map, then walk the prototype chain repeating the
dynamic-map check at each link. -/
def claimChainLookup (n : String) : List ObjRec → Option Value
  | [] => none
  | o :: rest =>
    match lookupAssoc o.values n with
    | some v => some v
    | none => claimChainLookup n rest

/-- Definition of `get_property_local` as claim C4 states it, written from the claim's
words for comparison with the source-derived `getPropertyLocal`. -/
def getPropertyLocalClaim (o : SObj) (mn : Multiname) : Except RefError Value :=
  match mn.localName, mn.containsPublicNamespace with
  | none, _ => .error ⟨.invalidRead⟩
  | some _, false => .error ⟨.invalidRead⟩
  | some n, true =>
    match claimChainLookup n (o.own :: o.protos) with
    | some v => .ok v
    | none =>
      if o.isSealed then .error ⟨.invalidRead⟩ else .ok Value.undefined

theorem protoLookup_eq_claimChainLookup (n : String) (l : List ObjRec) :
    protoLookup n l = claimChainLookup n l := by
  induction l with
  | nil => rfl
  | cons o rest ih =>
    simp only [protoLookup, claimChainLookup, ih]

/-- C4: `get_property_local(multiname)` raises a ReferenceError (invalid
read) whenever the multiname does not admit the public namespace or
carries no local name; otherwise it looks the local name up in the dynamic
map, then walks the prototype chain repeating the dynamic-map check at
each link, and if the name is still absent it returns undefined when the
object is non-sealed and raises ReferenceError when the object is sealed. -/
theorem get_property_local_matches_claim (o : SObj) (mn : Multiname) :
    getPropertyLocal o mn = getPropertyLocalClaim o mn := by
  obtain ⟨pub, ln⟩ := mn
  cases ln with
  | none => cases pub <;> rfl
  | some n =>
    cases pub with
    | false => rfl
    | true =>
      unfold getPropertyLocal getPropertyLocalClaim
      simp only [claimChainLookup, ← protoLookup_eq_claimChainLookup]
      cases h : lookupAssoc o.own.values n <;> simp

theorem lookupAssoc_update_self {α β : Type} [DecidableEq α] (l : List (α × β)) (k : α)
    (nv : β) (w : β) (h : lookupAssoc l k = some w) :
    lookupAssoc (updateAssoc l k nv) k = some nv := by
  induction l with
  | nil => simp [lookupAssoc] at h
  | cons p rest ih =>
    obtain ⟨a, b⟩ := p
    by_cases hak : a = k
    · subst hak; simp [lookupAssoc, updateAssoc]
    · simp only [lookupAssoc, updateAssoc, if_neg hak] at h ⊢
      exact ih h

theorem lookupAssoc_append_single_self {α β : Type} [DecidableEq α] (l : List (α × β))
    (k : α) (v : β) (h : lookupAssoc l k = none) :
    lookupAssoc (l ++ [(k, v)]) k = some v := by
  induction l with
  | nil => simp [lookupAssoc]
  | cons p rest ih =>
    obtain ⟨a, b⟩ := p
    by_cases hak : a = k
    · subst hak; simp [lookupAssoc] at h
    · simp only [lookupAssoc, List.cons_append, if_neg hak] at h ⊢
      exact ih h

theorem lookupAssoc_append_single_other {α β : Type} [DecidableEq α] (l : List (α × β))
    (k m : α) (v : β) (hne : k ≠ m) (h : lookupAssoc l m = none) :
    lookupAssoc (l ++ [(k, v)]) m = none := by
  induction l with
  | nil => simp [lookupAssoc, if_neg hne]
  | cons p rest ih =>
    obtain ⟨a, b⟩ := p
    by_cases ham : a = m
    · subst ham; simp [lookupAssoc] at h
    · simp only [lookupAssoc, List.cons_append, if_neg ham] at h ⊢
      exact ih h

/-- A sequence of `set_property_local` writes of public names, in order;
the embedding of the claim's "insertion order" scenario. -/
def setAll (o : SObj) : List (String × Value) → Except RefError SObj
  | [] => .ok o
  | (n, v) :: rest =>
    match setPropertyLocal o ⟨true, some n⟩ v with
    | .error e => .error e
    | .ok o' => setAll o' rest

theorem setAll_enumerants_insertion_order (o : SObj) (ops : List (String × Value))
    (hseal : o.isSealed = false) (hnodup : (ops.map Prod.fst).Nodup)
    (hfresh : ∀ p ∈ ops, lookupAssoc o.own.values p.1 = none) :
    ∃ o', setAll o ops = .ok o' ∧
      o'.own.enumerants = o.own.enumerants ++ ops.map Prod.fst := by
  induction ops generalizing o with
  | nil => exact ⟨o, rfl, by simp⟩
  | cons p rest ih =>
    obtain ⟨n, v⟩ := p
    have hn : lookupAssoc o.own.values n = none := hfresh (n, v) (by simp)
    have hstep : setPropertyLocal o ⟨true, some n⟩ v =
        .ok { o with own := { o.own with
                enumerants := o.own.enumerants ++ [n],
                values := o.own.values ++ [(n, v)] } } := by
      unfold setPropertyLocal
      simp [SObj.isSealed] at hseal
      simp [SObj.isSealed, hseal, hn]
    have hseal' : ({ o with own := { o.own with
                enumerants := o.own.enumerants ++ [n],
                values := o.own.values ++ [(n, v)] } } : SObj).isSealed = false := by
      simpa [SObj.isSealed, ObjRec.isSealed] using hseal
    have hnodup' : (rest.map Prod.fst).Nodup := (List.nodup_cons.mp hnodup).2
    have hfresh' : ∀ p ∈ rest,
        lookupAssoc (o.own.values ++ [(n, v)]) p.1 = none := by
      intro q hq
      have hqn : n ≠ q.1 := by
        intro hEq
        apply (List.nodup_cons.mp hnodup).1
        rw [hEq]
        exact List.mem_map.mpr ⟨q, hq, rfl⟩
      exact lookupAssoc_append_single_other _ _ _ _ hqn (hfresh q (List.mem_cons_of_mem _ hq))
    obtain ⟨o', ho', henum⟩ := ih _ hseal' hnodup' hfresh'
    refine ⟨o', ?_, ?_⟩
    · unfold setAll
      rw [hstep]
      exact ho'
    · simpa [List.append_assoc] using henum

/-- C5 (amended): `set_property_local` raises a ReferenceError when the
object is sealed, when the multiname excludes the public namespace, and
also when the multiname carries no local name; otherwise it upserts the
value into the dynamic map, and exactly on the first insertion of a given
name appends that name to the enumerant list, so a non-sealed object's
dynamic property names appear in enumeration in insertion order. -/
theorem set_property_local_spec :
    (∀ (o : SObj) (mn : Multiname) (v : Value),
        o.isSealed = true ∨ mn.containsPublicNamespace = false →
        setPropertyLocal o mn v = .error ⟨.invalidWrite⟩) ∧
    (∀ (o : SObj) (v : Value) (pub : Bool),
        o.isSealed = false →
        setPropertyLocal o ⟨pub, none⟩ v = .error ⟨.invalidWrite⟩) ∧
    (∀ (o : SObj) (n : String) (v : Value),
        o.isSealed = false →
        ∃ o', setPropertyLocal o ⟨true, some n⟩ v = .ok o' ∧
          lookupAssoc o'.own.values n = some v ∧
          (lookupAssoc o.own.values n = none →
              o'.own.enumerants = o.own.enumerants ++ [n]) ∧
          (∀ w, lookupAssoc o.own.values n = some w →
              o'.own.enumerants = o.own.enumerants)) ∧
    (∀ (o : SObj) (ops : List (String × Value)),
        o.isSealed = false → (ops.map Prod.fst).Nodup →
        (∀ p ∈ ops, lookupAssoc o.own.values p.1 = none) →
        ∃ o', setAll o ops = .ok o' ∧
          o'.own.enumerants = o.own.enumerants ++ ops.map Prod.fst) := by
  refine ⟨?_, ?_, ?_, ?_⟩
  · intro o mn v h
    unfold setPropertyLocal
    rcases h with h | h <;> simp [h]
  · intro o v pub hseal
    unfold setPropertyLocal
    cases pub <;> simp [hseal]
  · intro o n v hseal
    cases hlk : lookupAssoc o.own.values n with
    | some w =>
      refine ⟨{ o with own := { o.own with
            values := updateAssoc o.own.values n v } }, ?_, ?_, ?_, ?_⟩
      · unfold setPropertyLocal
        simp [hseal, hlk]
      · exact lookupAssoc_update_self _ _ _ _ hlk
      · intro hnone; simp at hnone
      · intro w' _; rfl
    | none =>
      refine ⟨{ o with own := { o.own with
            enumerants := o.own.enumerants ++ [n],
            values := o.own.values ++ [(n, v)] } }, ?_, ?_, ?_, ?_⟩
      · unfold setPropertyLocal
        simp [hseal, hlk]
      · exact lookupAssoc_append_single_self _ _ _ hlk
      · intro _; rfl
      · intro w' hsome; simp at hsome
  · intro o ops hseal hnodup hfresh
    exact setAll_enumerants_insertion_order o ops hseal hnodup hfresh

/-- A fresh, classless (hence non-sealed) object with no dynamic
properties. -/
def bareObj : SObj := ⟨⟨[], none, []⟩, []⟩

/-- C5 counterexample: on a non-sealed object, a public-namespace
multiname that carries no local name is rejected with a ReferenceError
instead of being upserted, so the claim's "otherwise it upserts" is false
as stated. -/
theorem set_property_local_no_name_rejected :
    bareObj.isSealed = false ∧
    (Multiname.mk true none).containsPublicNamespace = true ∧
    setPropertyLocal bareObj ⟨true, none⟩ (.vint 1) = .error ⟨.invalidWrite⟩ :=
  ⟨rfl, rfl, rfl⟩

/-- Witness for `set_property_local_spec`: instantiates every hypothesis
at concrete inputs. -/
theorem set_property_local_spec_witness :
    setPropertyLocal ⟨⟨[], some true, []⟩, []⟩ ⟨true, some "x"⟩ (.vint 7) =
        .error ⟨.invalidWrite⟩ ∧
    setPropertyLocal bareObj ⟨true, none⟩ (.vint 7) = .error ⟨.invalidWrite⟩ ∧
    (∃ o', setPropertyLocal bareObj ⟨true, some "x"⟩ (.vint 7) = .ok o' ∧
        lookupAssoc o'.own.values "x" = some (.vint 7) ∧
        (lookupAssoc bareObj.own.values "x" = none →
            o'.own.enumerants = bareObj.own.enumerants ++ ["x"]) ∧
        (∀ w, lookupAssoc bareObj.own.values "x" = some w →
            o'.own.enumerants = bareObj.own.enumerants)) ∧
    (∃ o', setAll bareObj [("x", .vint 1), ("y", .vint 2)] = .ok o' ∧
        o'.own.enumerants = bareObj.own.enumerants ++ ["x", "y"]) :=
  ⟨set_property_local_spec.1 _ _ _ (Or.inl rfl),
   set_property_local_spec.2.1 bareObj (.vint 7) true rfl,
   set_property_local_spec.2.2.1 bareObj "x" (.vint 7) rfl,
   set_property_local_spec.2.2.2 bareObj [("x", .vint 1), ("y", .vint 2)] rfl
     (by decide) (by intro p hp; fin_cases hp <;> rfl)⟩

/-- C6: enumeration is 1-based with 0 as the "no more elements" sentinel:
on an object holding exactly one dynamic property,
`get_next_enumerant(0)` returns 1 and `get_next_enumerant(1)` returns the
`None` sentinel, and on every object `get_enumerant_name(0)` returns
`None`. -/
theorem enumeration_one_based :
    (∀ (n : String) (v : Value),
      ∃ o', setPropertyLocal bareObj ⟨true, some n⟩ v = .ok o' ∧
        o'.own.values.length = 1 ∧
        getNextEnumerant o' 0 = some 1 ∧
        getNextEnumerant o' 1 = none) ∧
    (∀ o : SObj, getEnumerantName o 0 = none) := by
  constructor
  · intro n v
    exact ⟨⟨⟨[(n, v)], none, [n]⟩, []⟩, rfl, rfl, rfl, rfl⟩
  · intro o; rfl

/-- The fields of a `NativeMethod` read by `Executable::exec`: its name,
the declared signature length and the variadic flag. Modelled from the
spec: `method.rs` is not in the sources. -/
structure NativeMethodRec : Type where
  name : String
  sigLen : Nat
  isVariadic : Bool
deriving DecidableEq, Repr

/-- The fields of a `BytecodeMethod` read by `Executable::exec`: declared
signature length, variadic flag, and the `is_unchecked` predicate the
truncation path tests. Modelled from the spec: `method.rs` is not in the
sources. -/
structure BytecodeMethodRec : Type where
  sigLen : Nat
  isVariadic : Bool
  isUnchecked : Bool
deriving DecidableEq, Repr

/-- Embeds `Executable`: `Native` or `Action` (bytecode), with an optional bound
receiver (an object id). The captured scope and defining class do not
influence the verified paths beyond the global-receiver fallback, which is
passed to `execFn` explicitly. -/
inductive ExecutableM : Type where
  | native (method : NativeMethodRec) (boundReceiver : Option Nat)
  | action (method : BytecodeMethodRec) (boundReceiver : Option Nat)
deriving DecidableEq, Repr

/-- A call-stack frame: `CallStack::push` stores the executing method and
its bound superclass, which we identify with the executable itself. -/
abbrev FrameM : Type := ExecutableM

/-- Errors flowing out of `Executable::exec`: the native arity-mismatch
string error raised at `function.rs:139-146`, or an error raised by a
collaborator (receiver coercion, activation construction, parameter
resolution, or the method body). -/
inductive ErrM : Type where
  | nativeArity (name : String) (got : Nat) (declared : Nat)
  | raised (tag : Nat)
deriving DecidableEq, Repr

/-- Receiver resolution shared by both arms of `Executable::exec`: a
pre-bound receiver wins; a null/undefined caller receiver falls back to
the global object at the base of the captured scope; any other value is
coerced to an object (`coerce` abstracts `Value::coerce_to_object`, whose
module is not in the sources). -/
def resolveReceiver (bound : Option Nat) (globalReceiver : Nat)
    (coerce : Value → Except ErrM Nat) (unbound : Value) : Except ErrM Nat :=
  match bound with
  | some r => .ok r
  | none =>
    match unbound with
    | .undefined => .ok globalReceiver
    | .null => .ok globalReceiver
    | v => coerce v

/-- The observable outcome of one `Executable::exec` call: the returned
result, the call stack after the call, and the argument list the method
body was invoked with (`none` when the body was never reached). -/
structure ExecResult : Type where
  result : Except ErrM Value
  stack : List FrameM
  bodyArgs : Option (List Value)
deriving Repr

/-- Embeds `Executable::exec` (`core/src/avm2/function.rs:105-202`).
`mkActivation` abstracts `Activation::from_builtin` / `from_method`
(`activation.rs` is not in the sources), `resolveParams` abstracts
`resolve_parameters`, and `body` abstracts the native function pointer /
`run_actions`, taking the final arguments and the pushed stack and
returning the result with the stack as the body left it. The push at
`function.rs:154-157,190-193` and the unconditional pop at
`function.rs:197-200` are explicit; the early `return`/`?` exits happen
before the push and therefore skip the pop. -/
def execFn (e : ExecutableM) (globalReceiver : Nat)
    (coerce : Value → Except ErrM Nat)
    (mkActivation : Except ErrM Unit)
    (resolveParams : List Value → Except ErrM (List Value))
    (body : List Value → List FrameM → Except ErrM Value × List FrameM)
    (unboundReceiver : Value) (args : List Value) (stack : List FrameM) :
    ExecResult :=
  match e with
  | .native nm bound =>
    match resolveReceiver bound globalReceiver coerce unboundReceiver with
    | .error err => ⟨.error err, stack, none⟩
    | .ok _ =>
      match mkActivation with
      | .error err => ⟨.error err, stack, none⟩
      | .ok _ =>
        if args.length > nm.sigLen && !nm.isVariadic then
          ⟨.error (.nativeArity nm.name args.length nm.sigLen), stack, none⟩
        else
          match resolveParams args with
          | .error err => ⟨.error err, stack, none⟩
          | .ok finalArgs =>
            let pushed := stack ++ [ExecutableM.native nm bound]
            let res := body finalArgs pushed
            ⟨res.1, res.2.dropLast, some finalArgs⟩
  | .action bmeth bound =>
    let args2 :=
      if bmeth.isUnchecked && (args.length > bmeth.sigLen && !bmeth.isVariadic)
      then args.take bmeth.sigLen else args
    match resolveReceiver bound globalReceiver coerce unboundReceiver with
    | .error err => ⟨.error err, stack, none⟩
    | .ok _ =>
      match mkActivation with
      | .error err => ⟨.error err, stack, none⟩
      | .ok _ =>
        let pushed := stack ++ [ExecutableM.action bmeth bound]
        let res := body args2 pushed
        ⟨res.1, res.2.dropLast, some args2⟩

/-- C7 (amended): in `Executable::exec`, when more arguments are supplied
than the method declares and the method is not variadic, a native method
fails with an argument-count error before its body runs; a bytecode method
with unchecked parameters truncates the excess arguments and proceeds; a
bytecode method with checked parameters does not truncate — the full
argument list is handed to activation setup and the body. -/
theorem exec_arity_asymmetry :
    (∀ (nm : NativeMethodRec) (bound : Option Nat) (glob r : Nat)
        (coerce : Value → Except ErrM Nat)
        (rp : List Value → Except ErrM (List Value))
        (body : List Value → List FrameM → Except ErrM Value × List FrameM)
        (unb : Value) (args : List Value) (st : List FrameM),
        args.length > nm.sigLen → nm.isVariadic = false →
        resolveReceiver bound glob coerce unb = .ok r →
        execFn (.native nm bound) glob coerce (.ok ()) rp body unb args st =
          ⟨.error (.nativeArity nm.name args.length nm.sigLen), st, none⟩) ∧
    (∀ (bm : BytecodeMethodRec) (bound : Option Nat) (glob r : Nat)
        (coerce : Value → Except ErrM Nat)
        (rp : List Value → Except ErrM (List Value))
        (body : List Value → List FrameM → Except ErrM Value × List FrameM)
        (unb : Value) (args : List Value) (st : List FrameM),
        bm.isUnchecked = true →
        args.length > bm.sigLen → bm.isVariadic = false →
        resolveReceiver bound glob coerce unb = .ok r →
        (execFn (.action bm bound) glob coerce (.ok ()) rp body unb args st).bodyArgs =
          some (args.take bm.sigLen)) ∧
    (∀ (bm : BytecodeMethodRec) (bound : Option Nat) (glob r : Nat)
        (coerce : Value → Except ErrM Nat)
        (rp : List Value → Except ErrM (List Value))
        (body : List Value → List FrameM → Except ErrM Value × List FrameM)
        (unb : Value) (args : List Value) (st : List FrameM),
        bm.isUnchecked = false →
        resolveReceiver bound glob coerce unb = .ok r →
        (execFn (.action bm bound) glob coerce (.ok ()) rp body unb args st).bodyArgs =
          some args) := by
  refine ⟨?_, ?_, ?_⟩
  · intro nm bound glob r coerce rp body unb args st hlen hvar hrecv
    simp only [execFn]
    rw [hrecv]
    simp [hlen, hvar]
  · intro bm bound glob r coerce rp body unb args st hunc hlen hvar hrecv
    simp only [execFn]
    rw [hrecv]
    simp [hunc, hlen, hvar]
  · intro bm bound glob r coerce rp body unb args st hunc hrecv
    simp only [execFn]
    rw [hrecv]
    simp [hunc]

/-- Witness for `exec_arity_asymmetry` at concrete inputs. -/
theorem exec_arity_asymmetry_witness :
    execFn (.native ⟨"m", 1, false⟩ (some 0)) 0 (fun _ => .ok 0) (.ok ())
        (fun a => .ok a) (fun _ s => (.ok .undefined, s)) .null
        [.vint 1, .vint 2] [] =
      ⟨.error (.nativeArity "m" 2 1), [], none⟩ ∧
    (execFn (.action ⟨1, false, true⟩ (some 0)) 0 (fun _ => .ok 0) (.ok ())
        (fun a => .ok a) (fun _ s => (.ok .undefined, s)) .null
        [.vint 1, .vint 2] []).bodyArgs = some [.vint 1] ∧
    (execFn (.action ⟨1, false, false⟩ (some 0)) 0 (fun _ => .ok 0) (.ok ())
        (fun a => .ok a) (fun _ s => (.ok .undefined, s)) .null
        [.vint 1, .vint 2] []).bodyArgs = some [.vint 1, .vint 2] :=
  ⟨exec_arity_asymmetry.1 ⟨"m", 1, false⟩ (some 0) 0 0 _ _ _ .null
      [.vint 1, .vint 2] [] (by decide) rfl rfl,
   exec_arity_asymmetry.2.1 ⟨1, false, true⟩ (some 0) 0 0 _ _ _ .null
      [.vint 1, .vint 2] [] rfl (by decide) rfl rfl,
   exec_arity_asymmetry.2.2 ⟨1, false, false⟩ (some 0) 0 0 _ _ _ .null
      [.vint 1, .vint 2] [] rfl rfl⟩

/-- C7 counterexample: a non-variadic bytecode method with checked
parameters, declaring one parameter and called with two arguments, does
NOT truncate — the body receives both arguments, refuting the claim that
every non-variadic bytecode method truncates excess arguments. -/
theorem exec_bytecode_checked_no_truncation :
    (execFn (.action ⟨1, false, false⟩ (some 0)) 0 (fun _ => .ok 0) (.ok ())
        (fun a => .ok a) (fun _ s => (.ok .undefined, s)) .null
        [.vint 1, .vint 2] []).bodyArgs = some [.vint 1, .vint 2] ∧
    ([Value.vint 1, Value.vint 2] ≠ List.take 1 [Value.vint 1, Value.vint 2]) :=
  ⟨rfl, by decide⟩

theorem dropLast_append_singleton {α : Type} (l : List α) (a : α) :
    (l ++ [a]).dropLast = l := by
  simp

/-- C8: every call to `Executable::exec` leaves the call-stack depth
unchanged on every exit path — early errors (receiver coercion,
activation setup, the native arity check, parameter resolution) return
before the push, and the invocation path pops exactly the frame it
pushed, assuming the body itself restores the stack it was given (as
nested `exec` calls do by this very theorem). -/
theorem exec_call_stack_balanced (e : ExecutableM) (glob : Nat)
    (coerce : Value → Except ErrM Nat) (mkActivation : Except ErrM Unit)
    (rp : List Value → Except ErrM (List Value))
    (body : List Value → List FrameM → Except ErrM Value × List FrameM)
    (unb : Value) (args : List Value) (st : List FrameM)
    (hbody : ∀ a s, (body a s).2 = s) :
    (execFn e glob coerce mkActivation rp body unb args st).stack = st := by
  cases e <;> simp only [execFn] <;> repeat' split
  all_goals simp [hbody]

/-- Witness for `exec_call_stack_balanced` at concrete inputs. -/
theorem exec_call_stack_balanced_witness :
    (execFn (.native ⟨"m", 0, false⟩ (some 0)) 0 (fun _ => .ok 0) (.ok ())
        (fun a => .ok a) (fun _ s => (.ok .undefined, s)) .null []
        [ExecutableM.native ⟨"caller", 0, false⟩ none]).stack =
      [ExecutableM.native ⟨"caller", 0, false⟩ none] :=
  exec_call_stack_balanced _ _ _ _ _ _ _ _ _ (fun _ _ => rfl)

/-- A `CallNode` (`core/src/avm2/call_stack.rs:11-17`): the global
initializer of a script — carrying its optional translation unit and the
unit's optional name, the two observations `display` makes of a `Script`
— or a method frame, carrying the string `display_function` renders for
it (the rendering itself is the subject of no claim). -/
inductive CallNodeM : Type where
  | globalInit (translationUnit : Option (Option String))
  | methodNode (rendered : String)
deriving DecidableEq, Repr

/-- The translation-unit name as computed at `call_stack.rs:50-58`. -/
def globalInitName : Option (Option String) → String
  | none => "<No translation unit>"
  | some none => "<No name>"
  | some (some n) => n

/-- The per-frame text pushed after the `"\n\tat "` prefix
(`call_stack.rs:48-68`). -/
def displayNodeContent : CallNodeM → String
  | .globalInit tu => "global$init() [TU=" ++ globalInitName tu ++ "]"
  | .methodNode r => r

/-- Embeds `CallStack::display` (`core/src/avm2/call_stack.rs:45-70`): iterate
frames most recent first, pushing `"\n\tat "` and then the frame text onto
the output. The stack list grows at the tail, as `Vec::push` does. -/
def displayCallStack (stack : List CallNodeM) : String :=
  stack.reverse.foldl (fun out call => out ++ "\n\tat " ++ displayNodeContent call) ""

/-- One frame as the amended claim C10 describes it: the literal
`"\n\tat "` followed by the frame's description, a global-initializer
frame reading `global$init() [TU=NAME]`. -/
def renderFrameSpec : CallNodeM → String
  | .globalInit tu => "\n\tat global$init() [TU=" ++ globalInitName tu ++ "]"
  | .methodNode r => "\n\tat " ++ r

/-- The whole trace as the amended claim describes it, frame by frame. -/
def renderedTrace : List CallNodeM → String
  | [] => ""
  | c :: rest => renderFrameSpec c ++ renderedTrace rest

theorem string_append_assoc (a b c : String) : a ++ b ++ c = a ++ (b ++ c) := by
  apply String.ext
  simp

theorem renderFrameSpec_eq_tagged (c : CallNodeM) :
    renderFrameSpec c = "\n\tat " ++ displayNodeContent c := by
  cases c with
  | globalInit tu =>
    apply String.ext
    simp [renderFrameSpec, displayNodeContent]
  | methodNode r => rfl

theorem displayCallStack_go (l : List CallNodeM) (acc : String) :
    l.foldl (fun out call => out ++ "\n\tat " ++ displayNodeContent call) acc =
      acc ++ renderedTrace l := by
  induction l generalizing acc with
  | nil =>
    apply String.ext
    simp [renderedTrace]
  | cons c rest ih =>
    rw [List.foldl_cons, ih, renderedTrace, renderFrameSpec_eq_tagged]
    apply String.ext
    simp [List.append_assoc]

/-- C10 (amended): `CallStack::display` renders every frame, most recent
first, as the literal `"\n\tat "` followed by the frame's rendered
description; a global-initializer frame renders as
`global$init() [TU=NAME]` where NAME is the translation unit's name
(with `<No name>` / `<No translation unit>` fallbacks), not
`global$init() [unit=NAME]`. -/
theorem call_stack_display_renders_frames (stack : List CallNodeM) :
    displayCallStack stack = renderedTrace stack.reverse := by
  unfold displayCallStack
  rw [displayCallStack_go]
  apply String.ext
  simp

/-- C10 counterexample: a global-initializer frame of a unit named `NAME`
renders as `"\n\tat global$init() [TU=NAME]"`, which differs from the
claimed `"\n\tat global$init() [unit=NAME]"`. -/
theorem call_stack_display_tu_not_unit :
    displayCallStack [.globalInit (some (some "NAME"))] =
        "\n\tat global$init() [TU=NAME]" ∧
    ("\n\tat global$init() [TU=NAME]" ≠ "\n\tat global$init() [unit=NAME]") :=
  ⟨rfl, by decide⟩

/-- The class-descriptor state relevant to the class initializer: the
sticky `is_class_initialized` flag of `Class`. Modelled from the spec:
`class.rs` is not in the sources; the spec calls it a "sticky flag on the
descriptor". `initRuns` is a ghost counter of how many times the
initializer body has been entered. -/
structure ClassDefState : Type where
  classInitializedFlag : Bool
  initRuns : Nat
deriving DecidableEq, Repr

/-- Embeds `ClassObject::run_class_initializer`
(`core/src/avm2/object/class_object.rs:429-458`): if the descriptor flag
is unset, `mark_class_initialized` is called FIRST and then the
initializer function is called — `initFails` abstracts the outcome of
that call; if the flag is already set, nothing runs. -/
def runClassInitializer (st : ClassDefState) (initFails : Bool) :
    Except Unit Unit × ClassDefState :=
  if st.classInitializedFlag then (.ok (), st)
  else
    let st' : ClassDefState := ⟨true, st.initRuns + 1⟩
    ((if initFails then .error () else .ok ()), st')

/-- A sequence of `run_class_initializer` calls against one descriptor,
each entry giving the initializer body's outcome were it to run. -/
def runInitSeq (st : ClassDefState) : List Bool → ClassDefState
  | [] => st
  | f :: fs => runInitSeq (runClassInitializer st f).2 fs

/-- A descriptor whose class initializer has never been considered. -/
def freshClassDef : ClassDefState := ⟨false, 0⟩

theorem runInitSeq_of_flag (st : ClassDefState)
    (h : st.classInitializedFlag = true) : ∀ fs, runInitSeq st fs = st := by
  intro fs
  induction fs with
  | nil => rfl
  | cons f fs ih =>
    show runInitSeq (runClassInitializer st f).2 fs = st
    rw [runClassInitializer, if_pos h]
    exact ih

/-- C2: the class initializer body executes at most once per descriptor:
the sticky flag is set before the initializer runs, so any further
`run_class_initializer` call (e.g. from constructing another instance of
the same class) is a no-op; a failure inside the initializer propagates
to the caller while leaving the guard set, so no retry ever runs it
again. -/
theorem class_initializer_at_most_once :
    (∀ fs : List Bool, (runInitSeq freshClassDef fs).initRuns ≤ 1) ∧
    (∀ (st : ClassDefState) (f : Bool),
        ((runClassInitializer st f).2).classInitializedFlag = true ∨
          runClassInitializer st f = (.ok (), st)) ∧
    (∀ (st : ClassDefState) (f : Bool), st.classInitializedFlag = true →
        runClassInitializer st f = (.ok (), st)) ∧
    ((runClassInitializer freshClassDef true).1 = .error () ∧
        (runClassInitializer freshClassDef true).2 = ⟨true, 1⟩) ∧
    (∀ f : Bool,
        (runClassInitializer (runClassInitializer freshClassDef true).2 f).2.initRuns =
          1) := by
  refine ⟨?_, ?_, ?_, ⟨rfl, rfl⟩, fun f => ?_⟩
  · intro fs
    cases fs with
    | nil => exact Nat.zero_le 1
    | cons f fs =>
      show (runInitSeq (runClassInitializer freshClassDef f).2 fs).initRuns ≤ 1
      have h2 : (runClassInitializer freshClassDef f).2 = ⟨true, 1⟩ := by
        cases f <;> rfl
      rw [h2, runInitSeq_of_flag ⟨true, 1⟩ rfl fs]
  · intro st f
    by_cases h : st.classInitializedFlag = true
    · exact Or.inr (by rw [runClassInitializer, if_pos h])
    · left
      rw [runClassInitializer, if_neg h]
  · intro st f h
    rw [runClassInitializer, if_pos h]
  · rfl

/-- Witness for `class_initializer_at_most_once`: the already-initialized
branch at a concrete descriptor. -/
theorem class_initializer_at_most_once_witness :
    runClassInitializer ⟨true, 1⟩ false = (.ok (), ⟨true, 1⟩) :=
  class_initializer_at_most_once.2.2.1 ⟨true, 1⟩ false rfl

/-- The generic-application state of a generic `ClassObject`: the
`applications` cache mapping the applied parameter — `none` encodes the
valid parameter `null` — to the specialized class object's id, the
`params` field recorded on each specialization created so far, and an
allocation counter supplying fresh class-object ids (`from_class`
allocates a fresh `ClassObject` on every cache miss). -/
structure ApplyState : Type where
  applications : List (Option Nat × Nat)
  paramsOf : List (Nat × Option (Option Nat))
  nextId : Nat
deriving DecidableEq, Repr

/-- The failures of `ClassObject::apply`: #1127 (type application on a
non-parameterized type, from `make_error_1127`), TypeError #1128
(incorrect number of type parameters), and the string error for a
non-class parameter. -/
inductive ApplyError : Type where
  | error1127
  | typeError1128 (got : Nat)
  | nonClassParam
deriving DecidableEq, Repr

/-- The coercion of `nullable_params[0]` at `class_object.rs:953-970`:
`null` is a valid parameter (cache key `none`); a class object is the
parameter itself; anything else errors. -/
def coerceTypeParam : Value → Except ApplyError (Option Nat)
  | .null => .ok none
  | .vclass i => .ok (some i)
  | _ => .error .nonClassParam

/-- Embeds `ClassObject::apply` (`core/src/avm2/object/class_object.rs:922-1000`).
`isGeneric` is the receiver's `Class::is_generic` flag (`class.rs` is not
in the sources). A cache hit returns the memoized specialization; a miss
allocates a fresh specialized class object, records its `params` field as
`Some(object_param)` and inserts it into the `applications` cache. -/
def applyClass : Bool → ApplyState → List Value →
    Except ApplyError (ApplyState × Nat)
  | false, _, _ => .error .error1127
  | true, st, nullableParams =>
    match nullableParams with
    | [p] =>
      match coerceTypeParam p with
      | .error e => .error e
      | .ok objectParam =>
        match lookupAssoc st.applications objectParam with
        | some cls => .ok (st, cls)
        | none =>
          .ok ({ applications := st.applications ++ [(objectParam, st.nextId)],
                 paramsOf := st.paramsOf ++ [(st.nextId, some objectParam)],
                 nextId := st.nextId + 1 }, st.nextId)
    | other => .error (.typeError1128 other.length)

/-- A generic class whose application cache is empty, with `n` the next
fresh class-object id. -/
def emptyApplyState (n : Nat) : ApplyState := ⟨[], [], n⟩

/-- C3: `ClassObject::apply` memoizes specializations per distinct
type-parameter value — re-applying the same parameter (including the
valid parameter `null`, recorded as `Some(param)` and hence distinct from
the unapplied `None`) returns the same specialized class object with the
cache unchanged; applying two distinct parameters yields distinct class
objects, both retrievable later from the same cache; applying to a
non-generic class, or with an argument count other than exactly one, is
an error. -/
theorem apply_memoizes_specializations :
    (∀ (st : ApplyState) (params : List Value),
        applyClass false st params = .error .error1127) ∧
    (∀ (st : ApplyState) (params : List Value), params.length ≠ 1 →
        applyClass true st params = .error (.typeError1128 params.length)) ∧
    (∀ (st st' : ApplyState) (p : Value) (c : Nat),
        applyClass true st [p] = .ok (st', c) →
        applyClass true st' [p] = .ok (st', c)) ∧
    (∀ (p q : Value) (kp kq : Option Nat) (n : Nat),
        coerceTypeParam p = .ok kp → coerceTypeParam q = .ok kq → kp ≠ kq →
        ∃ st1 st2 c1 c2,
          applyClass true (emptyApplyState n) [p] = .ok (st1, c1) ∧
          applyClass true st1 [q] = .ok (st2, c2) ∧
          c1 ≠ c2 ∧
          lookupAssoc st2.applications kp = some c1 ∧
          lookupAssoc st2.applications kq = some c2) ∧
    (∀ n : Nat, ∃ st1 c1,
        applyClass true (emptyApplyState n) [Value.null] = .ok (st1, c1) ∧
        lookupAssoc st1.paramsOf c1 = some (some none) ∧
        (some (none : Option Nat) : Option (Option Nat)) ≠ none) := by
  refine ⟨?_, ?_, ?_, ?_, ?_⟩
  · intro st params; rfl
  · intro st params hlen
    cases params with
    | nil => rfl
    | cons p rest =>
      cases rest with
      | nil => exact absurd rfl hlen
      | cons q rest2 => rfl
  · intro st st' p c happ
    simp only [applyClass] at happ ⊢
    split at happ
    · simp at happ
    · rename_i k hk
      split at happ
      · rename_i cls hlk
        rw [Except.ok.injEq, Prod.mk.injEq] at happ
        obtain ⟨hst2, hc2⟩ := happ
        subst hst2
        subst hc2
        simp [hlk]
      · rename_i hlk
        rw [Except.ok.injEq, Prod.mk.injEq] at happ
        obtain ⟨hst2, hc2⟩ := happ
        subst hst2
        subst hc2
        simp [lookupAssoc_append_single_self _ _ _ hlk]
  · intro p q kp kq n hp hq hne
    refine ⟨⟨[(kp, n)], [(n, some kp)], n + 1⟩,
        ⟨[(kp, n), (kq, n + 1)], [(n, some kp), (n + 1, some kq)], n + 2⟩,
        n, n + 1, ?_, ?_, Nat.ne_of_lt (Nat.lt_succ_self n), ?_, ?_⟩
    · simp [applyClass, hp, emptyApplyState, lookupAssoc]
    · simp [applyClass, hq, lookupAssoc, if_neg hne]
    · simp [lookupAssoc]
    · simp [lookupAssoc, if_neg hne]
  · intro n
    refine ⟨⟨[(none, n)], [(n, some none)], n + 1⟩, n, rfl, ?_, by simp⟩
    simp [lookupAssoc]

/-- Witness for `apply_memoizes_specializations` at concrete inputs:
wrong arity, re-application of the same parameter, and two distinct
parameters (including `null`). -/
theorem apply_memoizes_specializations_witness :
    applyClass true (emptyApplyState 5) [] = .error (.typeError1128 0) ∧
    applyClass true ⟨[(some 9, 5)], [(5, some (some 9))], 6⟩ [Value.vclass 9] =
      .ok (⟨[(some 9, 5)], [(5, some (some 9))], 6⟩, 5) ∧
    (∃ st1 st2 c1 c2,
        applyClass true (emptyApplyState 5) [Value.vclass 9] = .ok (st1, c1) ∧
        applyClass true st1 [Value.null] = .ok (st2, c2) ∧
        c1 ≠ c2 ∧
        lookupAssoc st2.applications (some 9) = some c1 ∧
        lookupAssoc st2.applications none = some c2) :=
  ⟨apply_memoizes_specializations.2.1 (emptyApplyState 5) [] (by decide),
   apply_memoizes_specializations.2.2.1 (emptyApplyState 5)
      ⟨[(some 9, 5)], [(5, some (some 9))], 6⟩ (Value.vclass 9) 5 rfl,
   apply_memoizes_specializations.2.2.2.1 (Value.vclass 9) Value.null
      (some 9) none 5 rfl rfl (by decide)⟩

/-- The resolved property kinds of a vtable entry (`property.rs`). -/
inductive PropertyM : Type where
  | slot (id : Nat)
  | constSlot (id : Nat)
  | methodProp (dispId : Nat)
  | virtualProp (getId : Option Nat) (setId : Option Nat)
deriving DecidableEq, Repr

/-- Embeds `ClassBoundMethod`: the declaring class, captured scope and method a
dispatch id resolves to, all by id. Modelled from the spec: `vtable.rs`
is not in the sources; §4.2 records "(declaring class, captured scope,
executable)" per dispatch id. -/
structure ClassBoundMethodM : Type where
  declaringClass : Nat
  scope : Nat
  method : Nat
deriving DecidableEq, Repr

/-- A vtable: resolved traits keyed by name — multiname resolution is
abstracted to exact-name lookup — plus the side dispatch table. Modelled
from the spec (§4.2): `vtable.rs` is not in the sources. -/
structure VTableM : Type where
  resolvedTraits : List (String × PropertyM)
  methodTable : List ClassBoundMethodM
deriving DecidableEq, Repr

def VTableM.getTrait (vt : VTableM) (name : String) : Option PropertyM :=
  lookupAssoc vt.resolvedTraits name

def VTableM.getFullMethod (vt : VTableM) (dispId : Nat) :
    Option ClassBoundMethodM :=
  vt.methodTable.get? dispId

/-- Insert-or-replace of a resolved trait: overriding an inherited entry
replaces it outright (§4.2). -/
def upsertAssoc {α β : Type} [DecidableEq α] (l : List (α × β)) (k : α)
    (v : β) : List (α × β) :=
  match lookupAssoc l k with
  | some _ => updateAssoc l k v
  | none => l ++ [(k, v)]

/-- One method trait installed during `init_vtable`. Modelled from the
spec (§4.2): "Method traits: allocate the next dispatch id, record
(declaring class, captured scope, executable) in a side dispatch table,
insert Method{disp_id}"; an override replaces the inherited entry. -/
def installMethodTrait (vt : VTableM) (declClass scope : Nat) (name : String)
    (methodRef : Nat) : VTableM :=
  { resolvedTraits :=
      upsertAssoc vt.resolvedTraits name (.methodProp vt.methodTable.length),
    methodTable := vt.methodTable ++ [⟨declClass, scope, methodRef⟩] }

/-- The slice of a `ClassObject` that `call_super` consults: its id, its
name (for the #1070 message), its superclass and its own instance
vtable. -/
structure ClassObjectM : Type where
  id : Nat
  name : String
  superclassId : Option Nat
  instanceVtable : VTableM
deriving DecidableEq, Repr

/-- The observable outcome of `ClassObject::call_super`. `invoked` means
the resolved method was bound to the recorded declaring class and scope
and called with the given receiver and arguments; `propertyCallFallback`
is the degradation to `receiver.call_property`; `internalPanic` marks the
`.unwrap()` on a dangling dispatch id. -/
inductive SuperCallOutcome : Type where
  | invoked (methodRef declaringClass scope receiver : Nat) (args : List Value)
  | propertyCallFallback (receiver : Nat) (name : String) (args : List Value)
  | referenceError (msg : String) (code : Nat)
  | internalPanic
deriving DecidableEq, Repr

/-- Embeds `ClassObject::call_super`
(`core/src/avm2/object/class_object.rs:549-589`): resolve the name
against THIS class object's own instance vtable; if absent, raise
reference error #1070 naming the method and the class; if it resolves to
a method, bind the `ClassBoundMethod`'s own declaring class and scope and
invoke with the original receiver; any other property kind falls back to
a plain `call_property` on the receiver. -/
def callSuper (c : ClassObjectM) (name : String) (receiver : Nat)
    (args : List Value) : SuperCallOutcome :=
  match c.instanceVtable.getTrait name with
  | none =>
    .referenceError
      ("Error #1070: Method " ++ name ++ " not found on " ++ c.name) 1070
  | some (.methodProp dispId) =>
    match c.instanceVtable.getFullMethod dispId with
    | some cbm => .invoked cbm.method cbm.declaringClass cbm.scope receiver args
    | none => .internalPanic
  | some _ => .propertyCallFallback receiver name args

/-- Chain A → B → C, each declaring method `f` (method ids 100, 101, 102;
scopes 10, 11, 12), vtables built by the §4.2 merge over the
superclass's table. -/
def classA : ClassObjectM :=
  ⟨0, "A", none, installMethodTrait ⟨[], []⟩ 0 10 "f" 100⟩

def classB : ClassObjectM :=
  ⟨1, "B", some 0, installMethodTrait classA.instanceVtable 1 11 "f" 101⟩

def classC : ClassObjectM :=
  ⟨2, "C", some 1, installMethodTrait classB.instanceVtable 2 12 "f" 102⟩

/-- C1: `call_super` resolves the name in the receiving class object's
OWN instance property table: a method resolution binds the method's own
declaring class and scope and invokes it with the original receiver; a
slot resolution degrades to a plain property call on the receiver; no
resolution raises reference error #1070 naming both the method and the
class. Consequently, in a chain A→B→C all declaring `f`, the supercall
issued from B's `f` — executed against B's superclass A, per the
documented `callsuper` convention — invokes A's `f` (method id 100),
never C's (method id 102), whatever instance is the receiver. -/
theorem call_super_resolves_in_own_table :
    (∀ (c : ClassObjectM) (name : String) (receiver : Nat) (args : List Value)
        (dispId : Nat) (cbm : ClassBoundMethodM),
        c.instanceVtable.getTrait name = some (.methodProp dispId) →
        c.instanceVtable.getFullMethod dispId = some cbm →
        callSuper c name receiver args =
          .invoked cbm.method cbm.declaringClass cbm.scope receiver args) ∧
    (∀ (c : ClassObjectM) (name : String) (receiver : Nat) (args : List Value)
        (id : Nat),
        c.instanceVtable.getTrait name = some (.slot id) →
        callSuper c name receiver args =
          .propertyCallFallback receiver name args) ∧
    (∀ (c : ClassObjectM) (name : String) (receiver : Nat) (args : List Value),
        c.instanceVtable.getTrait name = none →
        callSuper c name receiver args =
          .referenceError
            ("Error #1070: Method " ++ name ++ " not found on " ++ c.name)
            1070) ∧
    (∀ (receiver : Nat) (args : List Value),
        classB.superclassId = some classA.id ∧
        callSuper classA "f" receiver args =
          .invoked 100 0 10 receiver args) ∧
    (classC.instanceVtable.getTrait "f" = some (.methodProp 2) ∧
        classC.instanceVtable.getFullMethod 2 = some ⟨2, 12, 102⟩ ∧
        (100 : Nat) ≠ 102) := by
  refine ⟨?_, ?_, ?_, ?_, ?_⟩
  · intro c name receiver args dispId cbm htrait hfull
    unfold callSuper
    rw [htrait]
    dsimp only
    rw [hfull]
  · intro c name receiver args id htrait
    unfold callSuper
    rw [htrait]
  · intro c name receiver args htrait
    unfold callSuper
    rw [htrait]
  · intro receiver args
    exact ⟨rfl, rfl⟩
  · exact ⟨by decide, by decide, by decide⟩

/-- Witness for `call_super_resolves_in_own_table` at a concrete class
and name. -/
theorem call_super_resolves_in_own_table_witness :
    callSuper classC "f" 7 [] = .invoked 102 2 12 7 [] ∧
    callSuper classC "g" 7 [] =
      .referenceError "Error #1070: Method g not found on C" 1070 :=
  ⟨call_super_resolves_in_own_table.1 classC "f" 7 [] 2 ⟨2, 12, 102⟩ rfl rfl,
   call_super_resolves_in_own_table.2.2.1 classC "g" 7 [] rfl⟩

/-- The AVM error classes relevant to claim C9. -/
inductive ErrorKind : Type where
  | argumentError
  | typeError
  | referenceError
deriving DecidableEq, Repr

/-- An AVM error: its class and numeric code. `argument_error` and
`type_error` (`error.rs`, not in the sources) construct errors of the
respective classes — the call sites in `class_object.rs` name the
constructor used. -/
structure AvmError : Type where
  kind : ErrorKind
  code : Nat
deriving DecidableEq, Repr

/-- The observable outcome of `ClassObject::call`. -/
inductive ClassCallOutcome : Type where
  | handlerInvoked (receiver : Value) (args : List Value)
  | coercedToType (v : Value)
  | failed (e : AvmError)
deriving DecidableEq, Repr

/-- Embeds `ClassObject::call` (`core/src/avm2/object/class_object.rs:859-882`):
with a custom call handler the handler executes; otherwise exactly one
argument is coerced to the class's type; otherwise the call fails with
`argument_error(... Error #1112: Argument count mismatch on class
coercion ...)` — an ArgumentError. -/
def classCall (hasCallHandler : Bool) (receiver : Value)
    (args : List Value) : ClassCallOutcome :=
  if hasCallHandler then .handlerInvoked receiver args
  else if args.length = 1 then .coercedToType (args.headD .undefined)
  else .failed ⟨.argumentError, 1112⟩

/-- C9 (amended): invoking a class object with no custom call handler as
a function with an argument count different from one fails, and the
error raised is an ArgumentError #1112 — not a TypeError. -/
theorem class_call_arity_error (receiver : Value) (args : List Value)
    (h : args.length ≠ 1) :
    classCall false receiver args = .failed ⟨.argumentError, 1112⟩ ∧
    (ErrorKind.argumentError ≠ ErrorKind.typeError) := by
  refine ⟨?_, by decide⟩
  unfold classCall
  rw [if_neg (by simp), if_neg h]

/-- Witness for `class_call_arity_error` at a concrete zero-argument
call. -/
theorem class_call_arity_error_witness :
    classCall false .null [] = .failed ⟨.argumentError, 1112⟩ ∧
    (ErrorKind.argumentError ≠ ErrorKind.typeError) :=
  class_call_arity_error .null [] (by decide)

/-- C9 counterexample: the zero-argument coercion call on a handler-less
class raises an error whose class is ArgumentError, not the TypeError the
claim names. -/
theorem class_call_arity_not_type_error :
    classCall false .null [] = .failed ⟨.argumentError, 1112⟩ ∧
    (AvmError.mk .argumentError 1112 ≠ AvmError.mk .typeError 1112) :=
  ⟨rfl, by decide⟩

end Avm2
